import Mathlib

/-! Verification of the modSTR document-processing and usage-metering core.

The definitions below are a shallow embedding of the TypeScript source:
  * `services/geminiService` (AI Gateway): extraction, classification,
    metadata derivation, rate-limit detection, usage logging;
  * `App.tsx`: the quota ledger check, the persistent-store loader,
    the document pipeline worker and the project metadata deriver.

External effects (the generative-AI provider, the relational store) are
modelled as explicit input parameters: each AI call's outcome is a value
of a small inductive type standing for the branches the source code
distinguishes (resolved text, thrown error with a message, ...).
-/

namespace ModSTR

/-- Contiguous-sublist test on character lists. -/
def charsInfixOf (sub : List Char) : List Char → Bool
  | [] => sub.isEmpty
  | c :: t => sub.isPrefixOf (c :: t) || charsInfixOf sub t

/-- Substring test on strings, mirroring JavaScript `String.prototype.includes`. -/
def strIncludes (s sub : String) : Bool := charsInfixOf sub.data s.data

/-- Whitespace test for the trim model. -/
def isWsChar (c : Char) : Bool := c = ' ' || c = '\t' || c = '\n' || c = '\r'

/-- Structural model of JavaScript `String.prototype.trim` (strip leading and
trailing whitespace). -/
def strTrim (s : String) : String :=
  ⟨((s.data.dropWhile isWsChar).reverse.dropWhile isWsChar).reverse⟩

/-- ASCII lower-casing of one character. -/
def charLower (c : Char) : Char :=
  if 'A' ≤ c ∧ c ≤ 'Z' then Char.ofNat (c.toNat + 32) else c

/-- Structural model of JavaScript `String.prototype.toLowerCase` (the
vocabulary and classifications compared in the source are ASCII). -/
def strLower (s : String) : String := ⟨s.data.map charLower⟩

/-- Sentinel of `services/geminiService` for file types stored but not analysable. -/
def UNSUPPORTED_FOR_EXTRACTION : String := "UNSUPPORTED_FOR_EXTRACTION"

/-- Rate-limited sentinel of `services/geminiService`. -/
def RATE_LIMIT_EXCEEDED : String := "RATE_LIMIT_EXCEEDED"

/-- Process results of `App.tsx`. -/
def PROCESS_SUCCESS : String := "SUCCESS"

def PROCESS_ERROR : String := "ERROR"

def PROCESS_RATE_LIMITED : String := "RATE_LIMITED"

/-- The fixed classification vocabulary `DOCUMENT_TYPES` of
`services/geminiService` (before being joined with ", "). -/
def DOCUMENT_TYPES_LIST : List String :=
  [ "Sale Deed", "Mutation Entry", "Loan Agreement", "Property Tax Receipt",
    "Power of Attorney", "Title Search Report", "Encumbrance Certificate",
    "Building Plan Approval", "Society Share Certificate", "Society NOC",
    "NA Order", "7/12 Extract", "Lease Deed", "Agreement for Sale",
    "Will / Probate", "Partition Deed", "Occupancy Certificate",
    "RERA Registration Certificate", "Redevelopment Agreement",
    "Legal Heir Certificate", "CERSAI Report", "Commencement Certificate",
    "Layout Plan", "Other" ]

/-- The joined `DOCUMENT_TYPES` string used inside `classifyDocument`. -/
def DOCUMENT_TYPES : String := String.intercalate ", " DOCUMENT_TYPES_LIST

/-- Outcome of one `ai.models.generateContent` call as the source
distinguishes it: either the promise resolves with response text, or it
rejects with an error whose `toString()` is `msg`. -/
inductive AIOut where
  | ok (text : String)
  | errThrow (msg : String)
  deriving DecidableEq, Repr

/-- Rate-limit detector used in `extractTextFromFile`,
`extractProjectDetailsAndScenario`, `analyzeDocumentCompleteness`,
`generateReport` and `reformatReport`:
`errMessage.includes('429') || errMessage.includes('RESOURCE_EXCEEDED')`. -/
def isRateLimitSignalExceeded (msg : String) : Bool :=
  strIncludes msg "429" || strIncludes msg "RESOURCE_EXCEEDED"

/-- Rate-limit detector used in `classifyDocument`:
`errMessage.includes('429') || errMessage.includes('RESOURCE_EXHAUSTED')`. -/
def isRateLimitSignalExhausted (msg : String) : Bool :=
  strIncludes msg "429" || strIncludes msg "RESOURCE_EXHAUSTED"

/-- Embedding of `classifyDocument` of `services/geminiService`, as a function of the
provider outcome.  On resolved text: empty text yields "Other"; otherwise
the trimmed classification is matched case-insensitively against the
joined vocabulary string and then against the individual labels, with
"Other" as the fallback.  On a thrown error: the rate-limited sentinel
when the message signals a rate limit, and the literal string "Error"
otherwise. -/
def classifyDocument (ai : AIOut) : String :=
  match ai with
  | .ok text =>
      let classification := strTrim text
      if classification = "" then "Other"
      else if strIncludes (strLower DOCUMENT_TYPES) (strLower classification) then
        (DOCUMENT_TYPES_LIST.find? (fun t => strLower t = strLower classification)).getD "Other"
      else "Other"
  | .errThrow msg =>
      if isRateLimitSignalExhausted msg then RATE_LIMIT_EXCEEDED else "Error"

/-- Allowlist `SUPPORTED_MIME_TYPES_FOR_EXTRACTION` of `extractTextFromFile`. -/
def SUPPORTED_MIME_TYPES_FOR_EXTRACTION : List String :=
  [ "image/jpeg", "image/png", "image/webp", "application/pdf",
    "image/gif", "image/bmp", "image/heic", "image/heif",
    "application/vnd.ms-excel", "text/html" ]

/-- Allowlist `KNOWN_UNSUPPORTED_MIME_TYPES` of `extractTextFromFile`. -/
def KNOWN_UNSUPPORTED_MIME_TYPES : List String :=
  [ "application/msword",
    "application/vnd.openxmlformats-officedocument.wordprocessingml.document",
    "application/vnd.openxmlformats-officedocument.spreadsheetml.sheet",
    "text/csv", "application/zip", "application/x-zip-compressed",
    "video/x-msvideo", "text/css", "application/xml", "text/xml",
    "application/octet-stream" ]

/-- The DOCX mime type singled out by `extractTextFromFile`. -/
def DOCX_MIME : String :=
  "application/vnd.openxmlformats-officedocument.wordprocessingml.document"

/-- The synthetic placeholder `extractTextFromFile` returns for DOCX files. -/
def docxPlaceholder (fileName : String) : String :=
  "[Text content from DOCX file: " ++ fileName ++
  ". Direct AI text extraction for DOCX is not fully supported for initial document processing. Please consider converting to PDF or copy-pasting content for re-formatting.]"

/-- Embedding of `extractTextFromFile` of `services/geminiService`, as a function of the
file's mime type, its name, and the provider outcome (the latter only
reached when the mime type passes the client-side allowlists). -/
def extractTextFromFile (fileType fileName : String) (ai : AIOut) : String :=
  if fileType = "" ∨ fileType ∈ KNOWN_UNSUPPORTED_MIME_TYPES then
    if fileType = DOCX_MIME then docxPlaceholder fileName
    else UNSUPPORTED_FOR_EXTRACTION
  else if fileType ∉ SUPPORTED_MIME_TYPES_FOR_EXTRACTION then
    "Error: Unsupported file type for AI text extraction: " ++ fileName ++
    ". Only images and PDFs can be processed."
  else
    match ai with
    | .ok text =>
        if strTrim text = "" then "Error: Empty or invalid text content from AI."
        else strTrim text
    | .errThrow msg =>
        if isRateLimitSignalExceeded msg then RATE_LIMIT_EXCEEDED
        else "Error: The text extraction process failed."

/-- The keys of the `SCENARIOS` record of `constants.ts`. -/
def SCENARIO_KEYS : List String :=
  [ "CLEAR_FREEHOLD_PLOT", "FLAT_IN_SOCIETY", "AGRICULTURAL_LAND", "NA_PLOT",
    "MORTGAGED_PROPERTY", "COURT_CASE_LITIGATION", "UNDER_CONSTRUCTION",
    "INDUSTRIAL_PLOT", "INHERITED_PROPERTY", "JOINT_OWNERSHIP",
    "REDEVELOPMENT_PROPERTY", "UNKNOWN" ]

/-- The partial `ProjectDetails` object parsed from the metadata-derivation
response: each field may be absent from the returned JSON. -/
structure ProjectDetailsPart where
  projectName : Option String
  propertyAddress : Option String
  clientName : Option String
  searchPeriod : Option String
  scenario : Option String
  deriving DecidableEq, Repr

/-- The empty object `{}` used by the failure paths of
`extractProjectDetailsAndScenario`. -/
def emptyDetails : ProjectDetailsPart := ⟨none, none, none, none, none⟩

/-- Outcome of the metadata-derivation provider call, by the branches the
source distinguishes: parsed JSON fields, non-empty but unparseable text,
empty/absent response text, or a thrown error with message `msg`. -/
inductive DetailsAIOut where
  | okParsed (d : ProjectDetailsPart)
  | okUnparseable
  | okEmpty
  | errThrow (msg : String)
  deriving DecidableEq, Repr

/-- Return vocabulary of `extractProjectDetailsAndScenario`: the rate-limited
sentinel or a (possibly empty) partial details object. -/
inductive DetailsResult where
  | rateLimited
  | fields (d : ProjectDetailsPart)
  deriving DecidableEq, Repr

/-- Embedding of `extractProjectDetailsAndScenario` of `services/geminiService`: empty
input text short-circuits to `{}` without a provider call; an empty or
unparseable response and any non-rate-limit thrown error also yield `{}`;
a thrown error signalling a rate limit yields the sentinel. -/
def extractProjectDetailsAndScenario (documentText : String) (ai : DetailsAIOut) : DetailsResult :=
  if strTrim documentText = "" then .fields emptyDetails
  else
    match ai with
    | .okParsed d => .fields d
    | .okUnparseable => .fields emptyDetails
    | .okEmpty => .fields emptyDetails
    | .errThrow msg =>
        if isRateLimitSignalExceeded msg then .rateLimited else .fields emptyDetails

/-- Outcome of a provider call whose success payload is a JSON string list
(`analyzeDocumentCompleteness`). -/
inductive ListAIOut where
  | okParsed (l : List String)
  | okUnparseable
  | okEmpty
  | errThrow (msg : String)
  deriving DecidableEq, Repr

/-- Return vocabulary of `analyzeDocumentCompleteness`. -/
inductive CompletenessResult where
  | rateLimited
  | missing (l : List String)
  deriving DecidableEq, Repr

/-- Embedding of `analyzeDocumentCompleteness` of `services/geminiService`: empty or
unparseable responses and non-rate-limit thrown errors yield `[]`; a thrown
error signalling a rate limit yields the sentinel. -/
def analyzeDocumentCompleteness (ai : ListAIOut) : CompletenessResult :=
  match ai with
  | .okParsed l => .missing l
  | .okUnparseable => .missing []
  | .okEmpty => .missing []
  | .errThrow msg =>
      if isRateLimitSignalExceeded msg then .rateLimited else .missing []

/-- The `error` field produced by the catch branch of `generateReport`:
the rate-limited sentinel for rate-limit signals, the raw error message
otherwise. -/
def generateReportError (msg : String) : String :=
  if isRateLimitSignalExceeded msg then RATE_LIMIT_EXCEEDED else msg

/-- The `error` field produced by the catch branch of `reformatReport`. -/
def reformatReportError (msg : String) : String :=
  if isRateLimitSignalExceeded msg then RATE_LIMIT_EXCEEDED
  else "Failed to reformat report: " ++ msg

/-! Quota Ledger (`App.tsx`: `checkApiAllowance`, `fetchUserPlanAndLimits`;
`services/geminiService`: `logAiCall`) -/

/-- The `api_limits` row fields the core reads and writes.  The reset date is
kept as its year and month, which are the only components the rollover logic
compares. -/
structure ApiLimitsRow where
  strsUsedMonthly : Nat
  inputTokensUsedMonthly : Nat
  outputTokensUsedMonthly : Nat
  resetYear : Nat
  resetMonth : Nat
  deriving DecidableEq, Repr

/-- The plan caps `checkApiAllowance` compares against. -/
structure PlanRow where
  maxStrsPerMonth : Nat
  maxStrsPerDay : Nat
  maxInputTokensPerMonth : Nat
  maxOutputTokensPerMonth : Nat
  deriving DecidableEq, Repr

/-- Result of the fresh `daily_usage` fetch inside `checkApiAllowance`:
either a row was read (`none` standing for the no-rows case PGRST116, which
the code treats as zero), or the query failed with a database error. -/
inductive DailyFetch where
  | ok (strCount : Option Nat)
  | err
  deriving DecidableEq, Repr

/-- The `STR_GEN` case of `checkApiAllowance` in `App.tsx`: the monthly
counter is checked first; only if it passes is the daily count fetched, a
fetch error yielding `false`, and otherwise the daily cap is checked with a
missing row counted as zero. -/
def checkApiAllowanceSTR (limits : ApiLimitsRow) (plan : PlanRow) (value : Nat)
    (daily : DailyFetch) : Bool :=
  if limits.strsUsedMonthly + value > plan.maxStrsPerMonth then false
  else
    match daily with
    | .err => false
    | .ok row => !(row.getD 0 + value > plan.maxStrsPerDay)

/-- The `TOKENS_INPUT` case of `checkApiAllowance`. -/
def checkApiAllowanceTokensInput (limits : ApiLimitsRow) (plan : PlanRow) (value : Nat) : Bool :=
  !(limits.inputTokensUsedMonthly + value > plan.maxInputTokensPerMonth)

/-- The `TOKENS_OUTPUT` case of `checkApiAllowance`. -/
def checkApiAllowanceTokensOutput (limits : ApiLimitsRow) (plan : PlanRow) (value : Nat) : Bool :=
  !(limits.outputTokensUsedMonthly + value > plan.maxOutputTokensPerMonth)

/-- The monthly-reset step of `fetchUserPlanAndLimits`: when the stored reset
date's month or year differs from today's, all three monthly counters become
zero and the reset date advances to today; otherwise the row is untouched. -/
def rolloverOnFetch (todayYear todayMonth : Nat) (l : ApiLimitsRow) : ApiLimitsRow :=
  if todayMonth ≠ l.resetMonth ∨ todayYear ≠ l.resetYear then
    { strsUsedMonthly := 0
      inputTokensUsedMonthly := 0
      outputTokensUsedMonthly := 0
      resetYear := todayYear
      resetMonth := todayMonth }
  else l

/-- Embedding of `logAiCall`: the STR increment is 1 exactly for the `generateReport`
endpoint. -/
def strIncrementFor (apiEndpointType : String) : Nat :=
  if apiEndpointType = "generateReport" then 1 else 0

/-- The `api_limits` update performed by `logAiCall` on a successful call:
each monthly counter is incremented, never decremented. -/
def recordMonthlyUsage (promptTokens completionTokens : Nat) (apiEndpointType : String)
    (l : ApiLimitsRow) : ApiLimitsRow :=
  { l with
    strsUsedMonthly := l.strsUsedMonthly + strIncrementFor apiEndpointType
    inputTokensUsedMonthly := l.inputTokensUsedMonthly + promptTokens
    outputTokensUsedMonthly := l.outputTokensUsedMonthly + completionTokens }

/-! Project Metadata Deriver (`App.tsx`: `runProjectDetailExtraction`) -/

/-- The project fields touched by the metadata merge. -/
structure ProjectFields where
  projectName : String
  propertyAddress : String
  clientName : String
  searchPeriod : String
  scenario : String
  deriving DecidableEq, Repr

/-- JavaScript `extractedDetails.field || p.field`: the previous value is kept
when the returned field is absent or the empty string (both falsy). -/
def jsOrElse (newVal : Option String) (old : String) : String :=
  match newVal with
  | some s => if s = "" then old else s
  | none => old

/-- The scenario-validation pattern
`(x && SCENARIOS[x]) ? x : 'UNKNOWN'` shared by the merge in
`runProjectDetailExtraction` and the loader in the `projects` initializer. -/
def validScenario (newVal : Option String) : String :=
  match newVal with
  | some s => if s ≠ "" ∧ s ∈ SCENARIO_KEYS then s else "UNKNOWN"
  | none => "UNKNOWN"

/-- The merge of returned details into the project performed by step 6 of
`runProjectDetailExtraction`: the four text fields fall back to their prior
values, `scenario` is always recomputed from the returned value alone. -/
def mergeProjectDetails (d : ProjectDetailsPart) (p : ProjectFields) : ProjectFields :=
  { projectName := jsOrElse d.projectName p.projectName
    propertyAddress := jsOrElse d.propertyAddress p.propertyAddress
    clientName := jsOrElse d.clientName p.clientName
    searchPeriod := jsOrElse d.searchPeriod p.searchPeriod
    scenario := validScenario d.scenario }

/-- How one synchronous run of `runProjectDetailExtraction` ended. -/
inductive DeriverAction where
  /-- re-entrancy guard hit or no user: the request is ignored, not queued -/
  | dropped
  /-- a token allowance check failed before the lock was taken -/
  | blockedByQuota
  /-- lock taken, but the project no longer exists -/
  | projectMissing
  /-- lock taken, no aggregated text: only the completeness check re-runs -/
  | noTextCompletenessOnly
  /-- the AI returned the rate-limited sentinel: a retry of the same
      derivation is scheduled 20 seconds later (`setTimeout(..., 20000)`) -/
  | retryScheduled
  /-- details merged into the project -/
  | merged (p : ProjectFields)
  deriving DecidableEq, Repr

/-- Result of one synchronous run of `runProjectDetailExtraction`: what it
did, and the re-entrancy set (`isExtractingFor`) after it returned. -/
structure DeriverStep where
  action : DeriverAction
  lockAfter : List String
  deriving DecidableEq, Repr

/-- Embedding of `runProjectDetailExtraction` of `App.tsx` as a function of the current
re-entrancy set and the run's inputs.  The guard drops a request whose
project is already in the set; the allowance check runs before the lock is
taken; after the lock is taken, the `finally` clause removes the project
from the set on every exit path of the `try` block — including the
rate-limit path that schedules the 20-second retry. -/
def runProjectDetailExtraction (lock : List String) (projectId : String)
    (userLoggedIn : Bool) (allowanceOk : Bool) (projectExists : Bool)
    (allText : String) (proj : ProjectFields) (ai : DetailsAIOut) : DeriverStep :=
  if projectId ∈ lock ∨ ¬userLoggedIn then
    ⟨.dropped, lock⟩
  else if ¬allowanceOk then
    ⟨.blockedByQuota, lock⟩
  else
    let locked := projectId :: lock
    let released := locked.erase projectId
    if ¬projectExists then
      ⟨.projectMissing, released⟩
    else if allText = "" then
      ⟨.noTextCompletenessOnly, released⟩
    else
      match extractProjectDetailsAndScenario allText ai with
      | .rateLimited => ⟨.retryScheduled, released⟩
      | .fields d => ⟨.merged (mergeProjectDetails d proj), released⟩

/-! Document Pipeline (`App.tsx`: `processSingleDocument` and the queue
worker effect) -/

/-- Document status machine of `types.ts`. -/
inductive DocStatus where
  | uploading
  | uploaded
  | extractingText
  | classifying
  | processed
  | error
  | unsupported
  deriving DecidableEq, Repr

/-- The document fields `processSingleDocument` reads and writes. -/
structure DocState where
  status : DocStatus
  extractedText : Option String
  docTypes : List String
  errorMsg : Option String
  deriving DecidableEq, Repr

/-- The awaited sub-results one `processSingleDocument` run consumes:
the four allowance checks and the two provider calls. -/
structure PipelineEnv where
  allowExtractInput : Bool
  allowExtractOutput : Bool
  extractAI : AIOut
  allowClassifyInput : Bool
  allowClassifyOutput : Bool
  classifyAI : AIOut
  deriving DecidableEq, Repr

/-- Result of one `processSingleDocument` run: the returned process-result
string and the final state of the document it worked on. -/
structure PSDResult where
  result : String
  doc : DocState
  deriving DecidableEq, Repr

/-- String prefix test mirroring JavaScript `String.prototype.startsWith`. -/
def strStartsWith (s pre : String) : Bool := pre.data.isPrefixOf s.data

/-- Embedding of `processSingleDocument` of `App.tsx`.  The document is marked
`Extracting Text`; a failed allowance check throws the rate-limit sentinel
as an `Error`, which the catch branch records on the document (status
`Error`) before the worker sees `PROCESS_RATE_LIMITED`.  The extraction
result is dispatched on the sentinels and on an `Error` prefix; extracted
text is stored together with status `Classifying`; the classification
result is compared only against the rate-limited sentinel before the
document is marked `Processed` with `docTypes` replaced by the single
returned label. -/
def processSingleDocument (fileType fileName : String) (d0 : DocState)
    (env : PipelineEnv) : PSDResult :=
  let d1 : DocState := { d0 with status := .extractingText }
  if ¬(env.allowExtractInput ∧ env.allowExtractOutput) then
    ⟨PROCESS_RATE_LIMITED, { d1 with status := .error, errorMsg := some RATE_LIMIT_EXCEEDED }⟩
  else
    let extracted := extractTextFromFile fileType fileName env.extractAI
    if extracted = RATE_LIMIT_EXCEEDED then
      ⟨PROCESS_RATE_LIMITED, d1⟩
    else if extracted = UNSUPPORTED_FOR_EXTRACTION then
      ⟨PROCESS_SUCCESS,
        { d1 with status := .unsupported,
                  errorMsg := some "This file type can be stored but not analyzed by AI." }⟩
    else if strStartsWith extracted "Error" then
      ⟨PROCESS_ERROR, { d1 with status := .error, errorMsg := some extracted }⟩
    else
      let d2 : DocState := { d1 with extractedText := some extracted, status := .classifying }
      if ¬(env.allowClassifyInput ∧ env.allowClassifyOutput) then
        ⟨PROCESS_RATE_LIMITED, { d2 with status := .error, errorMsg := some RATE_LIMIT_EXCEEDED }⟩
      else
        let docType := classifyDocument env.classifyAI
        if docType = RATE_LIMIT_EXCEEDED then
          ⟨PROCESS_RATE_LIMITED, d2⟩
        else
          ⟨PROCESS_SUCCESS, { d2 with docTypes := [docType], status := .processed }⟩

/-- The queue update the worker effect performs once a job's
`processSingleDocument` promise resolves: `PROCESS_RATE_LIMITED` leaves the
queue untouched (the same head job is retried after the 20-second pause);
every other result advances past the head (`prev.slice(1)`). -/
def workerQueueAfter (result : String) (queue : List (String × String)) :
    List (String × String) :=
  if result = PROCESS_RATE_LIMITED then queue else queue.drop 1

/-- Whether the worker effect schedules the 20-second pause before clearing
`isProcessing` for the given result. -/
def workerPauses (result : String) : Bool := result = PROCESS_RATE_LIMITED

/-! Persistent Project Store (`App.tsx`: the `projects` useState
initializer) -/

/-- Truthiness of an optional string field of a parsed JSON object
(`undefined` and the empty string are both falsy). -/
def truthyStr : Option String → Bool
  | none => false
  | some s => s ≠ ""

/-- A document sub-entry of the stored snapshot, as parsed JSON: every field
may be missing, the status is an arbitrary string, and `docType` is the
legacy single-type field.  `docTypes = none` covers both a missing field and
a non-array value (the `Array.isArray` guard). -/
structure RawDoc where
  id : Option String
  status : String
  docType : Option String
  docTypes : Option (List String)
  errorMsg : Option String
  progress : Option Nat
  deriving DecidableEq, Repr

/-- A project entry of the stored snapshot, as parsed JSON.
`documents = none` covers both a missing field and a non-array value. -/
structure RawProject where
  id : Option String
  documents : Option (List (Option RawDoc))
  projectName : Option String
  propertyAddress : Option String
  clientName : Option String
  searchPeriod : Option String
  scenario : Option String
  deriving DecidableEq, Repr

/-- A document after loading. -/
structure LoadedDoc where
  id : Option String
  status : String
  docTypes : List String
  errorMsg : Option String
  progress : Option Nat
  deriving DecidableEq, Repr

/-- A project after loading. -/
structure LoadedProject where
  id : Option String
  documents : List LoadedDoc
  projectName : String
  propertyAddress : String
  clientName : String
  searchPeriod : String
  scenario : String
  deriving DecidableEq, Repr

/-- The in-flight statuses the loader cleans up
(`transientStatuses` in the initializer). -/
def transientLoadStatuses : List String :=
  ["Uploading", "Uploaded", "Extracting Text", "Classifying"]

/-- Per-document load step: migrate the legacy `docType` into `docTypes`
(appending only when not already present, both falsy-guarded), delete the
legacy field, and force any transient status to `Error` with the
interruption message and zero progress. -/
def migrateDoc (rd : RawDoc) : LoadedDoc :=
  let currentTypes := rd.docTypes.getD []
  let finalTypes :=
    match rd.docType with
    | some t => if t ≠ "" ∧ t ∉ currentTypes then currentTypes ++ [t] else currentTypes
    | none => currentTypes
  if rd.status ∈ transientLoadStatuses then
    { id := rd.id
      status := "Error"
      docTypes := finalTypes
      errorMsg := some "Processing was interrupted. Please re-upload."
      progress := some 0 }
  else
    { id := rd.id
      status := rd.status
      docTypes := finalTypes
      errorMsg := rd.errorMsg
      progress := rd.progress }

/-- The document pass of the loader: a missing/non-array `documents` field
becomes `[]`; `null`/non-object entries and entries without a truthy id are
dropped; the rest are migrated. -/
def loadDocs (docs : Option (List (Option RawDoc))) : List LoadedDoc :=
  (((docs.getD []).filterMap id).filter (fun d => truthyStr d.id)).map migrateDoc

/-- The project pass of the loader: documents loaded via `loadDocs`, the
essential text fields given their fallbacks, and the scenario validated
against the `SCENARIOS` record. -/
def loadProject (rp : RawProject) : LoadedProject :=
  { id := rp.id
    documents := loadDocs rp.documents
    projectName := jsOrElse rp.projectName "Unnamed Project"
    propertyAddress := jsOrElse rp.propertyAddress "Not Provided"
    clientName := jsOrElse rp.clientName "Not Provided"
    searchPeriod := jsOrElse rp.searchPeriod "Not Provided"
    scenario := validScenario rp.scenario }

/-- The stored snapshot as the loader distinguishes it: no stored value,
`JSON.parse` throwing, a parsed non-array value, or an array of entries in
which `none` stands for a `null`/non-object element. -/
inductive Snapshot where
  | missing
  | parseFail
  | notArray
  | arr (entries : List (Option RawProject))
  deriving DecidableEq, Repr

/-- The `projects` useState initializer of `App.tsx`: unusable snapshots
start the collection empty; otherwise the entries are reduced left to
right, skipping `null`/non-object entries and entries without a truthy id,
and loading the rest. -/
def loadProjects : Snapshot → List LoadedProject
  | .missing => []
  | .parseFail => []
  | .notArray => []
  | .arr entries =>
      entries.foldl
        (fun acc e =>
          match e with
          | none => acc
          | some rp => if truthyStr rp.id then acc ++ [loadProject rp] else acc)
        []

/-! Pipeline serialization (`App.tsx`: the worker useEffect)

A transition system over the pipeline-relevant shared state: the document
collection (ids and statuses), the FIFO `processingQueue` (document ids),
and the worker flag.  Execution is the single-threaded event loop of the
source: each step is one of the state mutations the `App.tsx` handlers can
commit between awaits.  The worker is `idle` when `isProcessing` is false,
`busy j` while a `processSingleDocument` run for document `j` is in flight,
and `backoff j` during the 20-second pause that follows a
`PROCESS_RATE_LIMITED` result (with `isProcessing` still true). -/

/-- A document as the serialization argument sees it. -/
structure SysDoc where
  id : Nat
  status : DocStatus
  deriving DecidableEq, Repr

/-- Worker flag of the queue effect. -/
inductive Worker where
  | idle
  | busy (docId : Nat)
  | backoff (docId : Nat)
  deriving DecidableEq, Repr

/-- The shared pipeline state. -/
structure SysState where
  docs : List SysDoc
  queue : List Nat
  worker : Worker
  deriving DecidableEq, Repr

/-- A `setProjects` map that rewrites the status of the document with the
given id (a no-op when the document was deleted meanwhile). -/
def setStatus (docs : List SysDoc) (j : Nat) (st : DocStatus) : List SysDoc :=
  docs.map fun d => if d.id = j then { d with status := st } else d

/-- The two statuses only `processSingleDocument` ever writes. -/
def isTransientAI : DocStatus → Bool
  | .extractingText => true
  | .classifying => true
  | _ => false

/-- One event-loop step of the pipeline-relevant state.  Constructors mirror
the state mutations of `App.tsx`:
* `startJob` / `dropJob`: the worker effect fires when idle with a non-empty
  queue, either starting `processSingleDocument` on the head document or
  discarding a job whose document was deleted;
* `markStatus`: a `setProjects` update issued by the in-flight run — every
  status write of `processSingleDocument` targets its own document only;
* `finishJob`: the promise resolved with `PROCESS_SUCCESS` or
  `PROCESS_ERROR` (or the outer `.catch` ran): the head job is popped and
  the worker goes idle; by `processSingleDocument_resolved_not_transient`
  below, the worked document cannot be left in a transient status on these
  paths;
* `rateLimited` / `backoffDone`: a `PROCESS_RATE_LIMITED` result keeps the
  job at the head and pauses the worker 20 seconds before going idle;
* `addDoc`: project creation / upload handlers append fresh documents in
  status `Uploading` or `Uploaded`;
* `enqueue`: a job is appended to the queue tail;
* `externalSet`: any mutation outside `processSingleDocument` (upload
  simulation writing `Uploaded`/`Error`, load-time cleanup) — none of them
  writes `Extracting Text` or `Classifying`;
* `deleteDoc`: document or project deletion removes documents. -/
inductive PStep : SysState → SysState → Prop where
  | startJob (s : SysState) (j : Nat) (rest : List Nat) :
      s.worker = .idle → s.queue = j :: rest → j ∈ s.docs.map SysDoc.id →
      PStep s { s with worker := .busy j }
  | dropJob (s : SysState) (j : Nat) (rest : List Nat) :
      s.worker = .idle → s.queue = j :: rest → j ∉ s.docs.map SysDoc.id →
      PStep s { s with queue := rest }
  | markStatus (s : SysState) (j : Nat) (st : DocStatus) :
      s.worker = .busy j →
      PStep s { s with docs := setStatus s.docs j st }
  | finishJob (s : SysState) (j : Nat) (rest : List Nat) :
      s.worker = .busy j → s.queue = j :: rest →
      (∀ d ∈ s.docs, d.id = j → isTransientAI d.status = false) →
      PStep s { s with queue := rest, worker := .idle }
  | rateLimited (s : SysState) (j : Nat) :
      s.worker = .busy j →
      PStep s { s with worker := .backoff j }
  | backoffDone (s : SysState) (j : Nat) :
      s.worker = .backoff j →
      PStep s { s with worker := .idle }
  | addDoc (s : SysState) (i : Nat) (st : DocStatus) :
      i ∉ s.docs.map SysDoc.id → (st = .uploading ∨ st = .uploaded) →
      PStep s { s with docs := s.docs ++ [⟨i, st⟩] }
  | enqueue (s : SysState) (i : Nat) :
      PStep s { s with queue := s.queue ++ [i] }
  | externalSet (s : SysState) (i : Nat) (st : DocStatus) :
      isTransientAI st = false →
      PStep s { s with docs := setStatus s.docs i st }
  | deleteDoc (s : SysState) (i : Nat) :
      PStep s { s with docs := s.docs.filter (fun d => d.id ≠ i) }

/-- Startup states: the queue does not persist across sessions, the worker
flag starts false, the loader has forced every transient status to `Error`,
and document ids are distinct. -/
def InitState (s : SysState) : Prop :=
  s.queue = [] ∧ s.worker = .idle ∧
  (∀ d ∈ s.docs, isTransientAI d.status = false) ∧
  (s.docs.map SysDoc.id).Nodup

/-- States the pipeline can actually be in. -/
inductive PReachable : SysState → Prop where
  | init (s : SysState) : InitState s → PReachable s
  | step (s t : SysState) : PReachable s → PStep s t → PReachable t

/-- The document the pipeline is currently committed to: the in-flight or
backing-off job's document, or the queue head when idle. -/
def currentJobDoc (s : SysState) : Option Nat :=
  match s.worker with
  | .busy j => some j
  | .backoff j => some j
  | .idle => s.queue.head?

/-- Inductive invariant: every document in a transient AI status is the
current job's document; while the worker is busy or backing off, its job is
still at the head of the queue; and document ids are distinct. -/
def PInv (s : SysState) : Prop :=
  (∀ d ∈ s.docs, isTransientAI d.status = true → some d.id = currentJobDoc s) ∧
  (∀ j : Nat, s.worker = .busy j ∨ s.worker = .backoff j → s.queue.head? = some j) ∧
  (s.docs.map SysDoc.id).Nodup

/-! Theorems settling the claims. -/

/-- C3 (counterexample): `checkApiAllowance('STR_GEN', 1)` also returns
`false` when the fresh `daily_usage` fetch fails with a database error, at
a ledger/plan where neither cap is near: the monthly counter plus one is
within the monthly cap, and the same ledger with the daily count actually
read (as a missing row or as zero) returns `true` — so the claimed
"returns true in every other case" is violated by the fetch-error case. -/
theorem checkAllowance_str_false_on_daily_fetch_error :
    checkApiAllowanceSTR ⟨0, 0, 0, 2025, 10⟩ ⟨10, 5, 100, 100⟩ 1 .err = false ∧
    0 + 1 ≤ 10 ∧
    checkApiAllowanceSTR ⟨0, 0, 0, 2025, 10⟩ ⟨10, 5, 100, 100⟩ 1 (.ok none) = true ∧
    checkApiAllowanceSTR ⟨0, 0, 0, 2025, 10⟩ ⟨10, 5, 100, 100⟩ 1 (.ok (some 0)) = true := by
  decide

/-- C3 (amended): `checkApiAllowance('STR_GEN', 1)` returns `false` exactly
when the monthly STR counter plus one exceeds the monthly cap, or the
daily-usage fetch fails with a database error, or the fetched same-day STR
count (a missing row counting as zero) plus one exceeds the daily cap;
it returns `true` in every other case. -/
theorem checkAllowance_str_characterization (limits : ApiLimitsRow) (plan : PlanRow)
    (daily : DailyFetch) :
    checkApiAllowanceSTR limits plan 1 daily = false ↔
      (limits.strsUsedMonthly + 1 > plan.maxStrsPerMonth ∨
       daily = .err ∨
       ∃ row, daily = .ok row ∧ row.getD 0 + 1 > plan.maxStrsPerDay) := by
  unfold checkApiAllowanceSTR
  by_cases hm : limits.strsUsedMonthly + 1 > plan.maxStrsPerMonth
  · simp [hm]
  · cases daily with
    | err => simp [hm]
    | ok row => simp [hm]

/-- Closed instantiation of `checkAllowance_str_characterization`. -/
theorem checkAllowance_str_characterization_witness :
    checkApiAllowanceSTR ⟨3, 0, 0, 2025, 10⟩ ⟨10, 5, 100, 100⟩ 1 (.ok (some 5)) = false ∧
    checkApiAllowanceSTR ⟨3, 0, 0, 2025, 10⟩ ⟨10, 5, 100, 100⟩ 1 (.ok (some 2)) = true := by
  constructor
  · exact (checkAllowance_str_characterization ⟨3, 0, 0, 2025, 10⟩ ⟨10, 5, 100, 100⟩
      (.ok (some 5))).mpr (Or.inr (Or.inr ⟨some 5, rfl, by decide⟩))
  · have h := checkAllowance_str_characterization ⟨3, 0, 0, 2025, 10⟩ ⟨10, 5, 100, 100⟩
      (.ok (some 2))
    by_cases hb : checkApiAllowanceSTR ⟨3, 0, 0, 2025, 10⟩ ⟨10, 5, 100, 100⟩ 1
        (.ok (some 2)) = false
    · rcases h.mp hb with hc | hc | ⟨row, hrow, hc⟩
      · exact absurd hc (by decide)
      · exact DailyFetch.noConfusion hc
      · cases hrow; exact absurd hc (by decide)
    · simpa using hb

/-- C6: within a reset period the three monthly counters never decrease
(every `logAiCall` update adds non-negative increments), and the rollover
step of `fetchUserPlanAndLimits` is the identity while the stored reset
date's month and year match today's, and otherwise zeroes all three
counters and advances the reset date to today. -/
theorem monthly_counters_monotone_and_reset :
    (∀ (l : ApiLimitsRow) (p c : Nat) (e : String),
        l.strsUsedMonthly ≤ (recordMonthlyUsage p c e l).strsUsedMonthly ∧
        l.inputTokensUsedMonthly ≤ (recordMonthlyUsage p c e l).inputTokensUsedMonthly ∧
        l.outputTokensUsedMonthly ≤ (recordMonthlyUsage p c e l).outputTokensUsedMonthly ∧
        (recordMonthlyUsage p c e l).resetYear = l.resetYear ∧
        (recordMonthlyUsage p c e l).resetMonth = l.resetMonth) ∧
    (∀ (y m : Nat) (l : ApiLimitsRow),
        (m = l.resetMonth ∧ y = l.resetYear → rolloverOnFetch y m l = l) ∧
        (m ≠ l.resetMonth ∨ y ≠ l.resetYear →
          (rolloverOnFetch y m l).strsUsedMonthly = 0 ∧
          (rolloverOnFetch y m l).inputTokensUsedMonthly = 0 ∧
          (rolloverOnFetch y m l).outputTokensUsedMonthly = 0 ∧
          (rolloverOnFetch y m l).resetYear = y ∧
          (rolloverOnFetch y m l).resetMonth = m)) := by
  constructor
  · intro l p c e
    refine ⟨Nat.le_add_right _ _, Nat.le_add_right _ _, Nat.le_add_right _ _, rfl, rfl⟩
  · intro y m l
    constructor
    · rintro ⟨hm, hy⟩
      unfold rolloverOnFetch
      rw [if_neg]
      push_neg
      exact ⟨hm, hy⟩
    · intro h
      unfold rolloverOnFetch
      rw [if_pos h]
      exact ⟨rfl, rfl, rfl, rfl, rfl⟩

/-- Closed instantiation of `monthly_counters_monotone_and_reset`. -/
theorem monthly_counters_monotone_and_reset_witness :
    (⟨3, 4, 5, 2025, 9⟩ : ApiLimitsRow).strsUsedMonthly ≤
      (recordMonthlyUsage 7 8 "generateReport" ⟨3, 4, 5, 2025, 9⟩).strsUsedMonthly ∧
    (rolloverOnFetch 2025 10 ⟨3, 4, 5, 2025, 9⟩).strsUsedMonthly = 0 ∧
    (rolloverOnFetch 2025 10 ⟨3, 4, 5, 2025, 9⟩).resetMonth = 10 :=
  ⟨(monthly_counters_monotone_and_reset.1 ⟨3, 4, 5, 2025, 9⟩ 7 8 "generateReport").1,
   ((monthly_counters_monotone_and_reset.2 2025 10 ⟨3, 4, 5, 2025, 9⟩).2 (by decide)).1,
   (((monthly_counters_monotone_and_reset.2 2025 10 ⟨3, 4, 5, 2025, 9⟩).2 (by decide)).2).2.2.2⟩

/-- C7: in the merge performed after a successful metadata derivation, each
of the four text fields keeps its prior value when the AI returned nothing
(or an empty string) for it and takes the returned value otherwise, while
`scenario` is recomputed from the returned value alone — independent of the
prior project state, equal to the returned value when that is a recognized
scenario key and `UNKNOWN` otherwise. -/
theorem merge_details_field_fallbacks (d : ProjectDetailsPart) (p : ProjectFields) :
    ((d.projectName = none ∨ d.projectName = some "") →
        (mergeProjectDetails d p).projectName = p.projectName) ∧
    (∀ s, d.projectName = some s → s ≠ "" → (mergeProjectDetails d p).projectName = s) ∧
    ((d.propertyAddress = none ∨ d.propertyAddress = some "") →
        (mergeProjectDetails d p).propertyAddress = p.propertyAddress) ∧
    (∀ s, d.propertyAddress = some s → s ≠ "" → (mergeProjectDetails d p).propertyAddress = s) ∧
    ((d.clientName = none ∨ d.clientName = some "") →
        (mergeProjectDetails d p).clientName = p.clientName) ∧
    (∀ s, d.clientName = some s → s ≠ "" → (mergeProjectDetails d p).clientName = s) ∧
    ((d.searchPeriod = none ∨ d.searchPeriod = some "") →
        (mergeProjectDetails d p).searchPeriod = p.searchPeriod) ∧
    (∀ s, d.searchPeriod = some s → s ≠ "" → (mergeProjectDetails d p).searchPeriod = s) ∧
    (∀ q, (mergeProjectDetails d p).scenario = (mergeProjectDetails d q).scenario) ∧
    (∀ s, d.scenario = some s → s ∈ SCENARIO_KEYS → s ≠ "" →
        (mergeProjectDetails d p).scenario = s) ∧
    ((∀ s, d.scenario = some s → s ∉ SCENARIO_KEYS) →
        (mergeProjectDetails d p).scenario = "UNKNOWN") := by
  refine ⟨?_, ?_, ?_, ?_, ?_, ?_, ?_, ?_, ?_, ?_, ?_⟩
  · rintro (h | h) <;> simp [mergeProjectDetails, jsOrElse, h]
  · intro s h hs; simp [mergeProjectDetails, jsOrElse, h, hs]
  · rintro (h | h) <;> simp [mergeProjectDetails, jsOrElse, h]
  · intro s h hs; simp [mergeProjectDetails, jsOrElse, h, hs]
  · rintro (h | h) <;> simp [mergeProjectDetails, jsOrElse, h]
  · intro s h hs; simp [mergeProjectDetails, jsOrElse, h, hs]
  · rintro (h | h) <;> simp [mergeProjectDetails, jsOrElse, h]
  · intro s h hs; simp [mergeProjectDetails, jsOrElse, h, hs]
  · intro q; rfl
  · intro s h hk hs; simp [mergeProjectDetails, validScenario, h, hs, hk]
  · intro h
    cases hd : d.scenario with
    | none => simp [mergeProjectDetails, validScenario, hd]
    | some s => simp [mergeProjectDetails, validScenario, hd, h s hd]

/-- Closed instantiation of `merge_details_field_fallbacks`. -/
theorem merge_details_field_fallbacks_witness :
    (mergeProjectDetails ⟨some "N", none, some "", some "30 years", some "FLAT_IN_SOCIETY"⟩
        ⟨"P", "A", "C", "S", "NA_PLOT"⟩).projectName = "N" ∧
    (mergeProjectDetails ⟨some "N", none, some "", some "30 years", some "FLAT_IN_SOCIETY"⟩
        ⟨"P", "A", "C", "S", "NA_PLOT"⟩).propertyAddress = "A" ∧
    (mergeProjectDetails ⟨some "N", none, some "", some "30 years", some "FLAT_IN_SOCIETY"⟩
        ⟨"P", "A", "C", "S", "NA_PLOT"⟩).clientName = "C" ∧
    (mergeProjectDetails ⟨some "N", none, some "", some "30 years", some "FLAT_IN_SOCIETY"⟩
        ⟨"P", "A", "C", "S", "NA_PLOT"⟩).scenario = "FLAT_IN_SOCIETY" := by
  have h := merge_details_field_fallbacks
    ⟨some "N", none, some "", some "30 years", some "FLAT_IN_SOCIETY"⟩
    ⟨"P", "A", "C", "S", "NA_PLOT"⟩
  refine ⟨h.2.1 "N" rfl (by decide), h.2.2.1 (Or.inl rfl), h.2.2.2.2.1 (Or.inr rfl),
    h.2.2.2.2.2.2.2.2.2.1 "FLAT_IN_SOCIETY" rfl (by decide) (by decide)⟩

/-- C10: when the metadata-derivation call fails with a non-rate-limit
provider error, or its response is empty or unparseable, the gateway
returns the empty details object, and merging it leaves the four text
fields at their prior values while resetting `scenario` to `UNKNOWN`. -/
theorem derive_failure_merges_empty_resets_scenario (txt : String) (ai : DetailsAIOut)
    (p : ProjectFields)
    (hfail : ai = .okEmpty ∨ ai = .okUnparseable ∨
             ∃ m, ai = .errThrow m ∧ isRateLimitSignalExceeded m = false) :
    extractProjectDetailsAndScenario txt ai = .fields emptyDetails ∧
    (mergeProjectDetails emptyDetails p).projectName = p.projectName ∧
    (mergeProjectDetails emptyDetails p).propertyAddress = p.propertyAddress ∧
    (mergeProjectDetails emptyDetails p).clientName = p.clientName ∧
    (mergeProjectDetails emptyDetails p).searchPeriod = p.searchPeriod ∧
    (mergeProjectDetails emptyDetails p).scenario = "UNKNOWN" := by
  refine ⟨?_, rfl, rfl, rfl, rfl, rfl⟩
  unfold extractProjectDetailsAndScenario
  by_cases ht : strTrim txt = ""
  · simp [ht]
  · rcases hfail with h | h | ⟨m, hm, hrl⟩ <;> simp [ht, *]

/-- Closed instantiation of `derive_failure_merges_empty_resets_scenario`. -/
theorem derive_failure_merges_empty_resets_scenario_witness :
    extractProjectDetailsAndScenario "deed text" .okEmpty = .fields emptyDetails ∧
    (mergeProjectDetails emptyDetails ⟨"P", "A", "C", "S", "FLAT_IN_SOCIETY"⟩).scenario
      = "UNKNOWN" :=
  ⟨(derive_failure_merges_empty_resets_scenario "deed text" .okEmpty
      ⟨"P", "A", "C", "S", "FLAT_IN_SOCIETY"⟩ (Or.inl rfl)).1,
   (derive_failure_merges_empty_resets_scenario "deed text" .okEmpty
      ⟨"P", "A", "C", "S", "FLAT_IN_SOCIETY"⟩ (Or.inl rfl)).2.2.2.2.2⟩

/-- C8: the provider signal `RESOURCE_EXHAUSTED` (with no "429" in the
message) is mapped to the rate-limited sentinel only by `classifyDocument`;
the other operations' detectors test for the substring `RESOURCE_EXCEEDED`,
so extraction, metadata derivation, completeness analysis, report
generation and report reformatting all return a generic error result
instead of the sentinel on that signal. -/
theorem rate_limit_detector_misses_resource_exhausted :
    isRateLimitSignalExceeded "RESOURCE_EXHAUSTED" = false ∧
    extractTextFromFile "application/pdf" "deed.pdf" (.errThrow "RESOURCE_EXHAUSTED")
      = "Error: The text extraction process failed." ∧
    extractProjectDetailsAndScenario "deed text" (.errThrow "RESOURCE_EXHAUSTED")
      = .fields emptyDetails ∧
    analyzeDocumentCompleteness (.errThrow "RESOURCE_EXHAUSTED") = .missing [] ∧
    generateReportError "RESOURCE_EXHAUSTED" = "RESOURCE_EXHAUSTED" ∧
    generateReportError "RESOURCE_EXHAUSTED" ≠ RATE_LIMIT_EXCEEDED ∧
    reformatReportError "RESOURCE_EXHAUSTED" ≠ RATE_LIMIT_EXCEEDED ∧
    classifyDocument (.errThrow "RESOURCE_EXHAUSTED") = RATE_LIMIT_EXCEEDED := by
  decide

/-- C1: when extraction succeeds but the classification call rejects with a
generic (non-rate-limit) provider error, `classifyDocument` returns the
literal string "Error", which `processSingleDocument` treats as a valid
label: the document is marked `Processed` with `docTypes = ["Error"]` —
and "Error" is not in the fixed classification vocabulary.  The extracted
text is stored and non-empty nonetheless. -/
theorem classify_provider_error_processed_with_error_label :
    (processSingleDocument "application/pdf" "deed.pdf"
        ⟨.uploaded, none, [], none⟩
        ⟨true, true, .ok "sale deed text", true, true, .errThrow "network failure"⟩).result
      = PROCESS_SUCCESS ∧
    (processSingleDocument "application/pdf" "deed.pdf"
        ⟨.uploaded, none, [], none⟩
        ⟨true, true, .ok "sale deed text", true, true, .errThrow "network failure"⟩).doc.status
      = .processed ∧
    (processSingleDocument "application/pdf" "deed.pdf"
        ⟨.uploaded, none, [], none⟩
        ⟨true, true, .ok "sale deed text", true, true, .errThrow "network failure"⟩).doc.docTypes
      = ["Error"] ∧
    (processSingleDocument "application/pdf" "deed.pdf"
        ⟨.uploaded, none, [], none⟩
        ⟨true, true, .ok "sale deed text", true, true, .errThrow "network failure"⟩).doc.extractedText
      = some "sale deed text" ∧
    "Error" ∉ DOCUMENT_TYPES_LIST := by
  decide

/-- C5 (counterexample): when the first allowance check of the job being
worked fails, the document is marked `Error`, but the run resolves with
`PROCESS_RATE_LIMITED` and the worker leaves the queue untouched — the job
is not abandoned and the pipeline does not advance to the next queued
job. -/
theorem allowance_failure_does_not_advance_queue :
    (processSingleDocument "application/pdf" "deed.pdf"
        ⟨.uploaded, none, [], none⟩
        ⟨false, true, .ok "text", true, true, .ok "Sale Deed"⟩).result
      = PROCESS_RATE_LIMITED ∧
    (processSingleDocument "application/pdf" "deed.pdf"
        ⟨.uploaded, none, [], none⟩
        ⟨false, true, .ok "text", true, true, .ok "Sale Deed"⟩).doc.status = .error ∧
    workerQueueAfter PROCESS_RATE_LIMITED [("p1", "d1"), ("p1", "d2")]
      = [("p1", "d1"), ("p1", "d2")] := by
  decide

/-- C5 (amended): when a pipeline allowance check fails for the job being
worked — at the extraction stage or at the classification stage — the
document is marked `Error` with the rate-limit sentinel as its error text,
but the job is not abandoned: the run resolves with
`PROCESS_RATE_LIMITED`, so the worker pauses for the 20-second backoff and
leaves the queue unchanged, retrying the same job afterwards. -/
theorem allowance_failure_marks_error_and_retries (ft fn : String) (d0 : DocState)
    (env : PipelineEnv) (q : List (String × String))
    (h : (env.allowExtractInput = false ∨ env.allowExtractOutput = false) ∨
         (env.allowExtractInput = true ∧ env.allowExtractOutput = true ∧
          extractTextFromFile ft fn env.extractAI ≠ RATE_LIMIT_EXCEEDED ∧
          extractTextFromFile ft fn env.extractAI ≠ UNSUPPORTED_FOR_EXTRACTION ∧
          strStartsWith (extractTextFromFile ft fn env.extractAI) "Error" = false ∧
          (env.allowClassifyInput = false ∨ env.allowClassifyOutput = false))) :
    (processSingleDocument ft fn d0 env).result = PROCESS_RATE_LIMITED ∧
    (processSingleDocument ft fn d0 env).doc.status = .error ∧
    (processSingleDocument ft fn d0 env).doc.errorMsg = some RATE_LIMIT_EXCEEDED ∧
    workerQueueAfter (processSingleDocument ft fn d0 env).result q = q ∧
    workerPauses (processSingleDocument ft fn d0 env).result = true := by
  rcases h with h | ⟨h1, h2, h3, h4, h5, h6⟩
  · have hA : ¬(env.allowExtractInput ∧ env.allowExtractOutput) := by
      rcases h with h | h <;> simp [h]
    simp [processSingleDocument, hA, workerQueueAfter, workerPauses]
  · have hB : ¬(env.allowClassifyInput ∧ env.allowClassifyOutput) := by
      rcases h6 with h6 | h6 <;> simp [h6]
    simp [processSingleDocument, h1, h2, h3, h4, h5, hB, workerQueueAfter, workerPauses]

/-- Closed instantiation of `allowance_failure_marks_error_and_retries`
(classification-stage allowance failure). -/
theorem allowance_failure_marks_error_and_retries_witness :
    (processSingleDocument "application/pdf" "deed.pdf"
        ⟨.uploaded, none, [], none⟩
        ⟨true, true, .ok "deed text", false, true, .ok "Sale Deed"⟩).result
      = PROCESS_RATE_LIMITED ∧
    (processSingleDocument "application/pdf" "deed.pdf"
        ⟨.uploaded, none, [], none⟩
        ⟨true, true, .ok "deed text", false, true, .ok "Sale Deed"⟩).doc.status = .error ∧
    (processSingleDocument "application/pdf" "deed.pdf"
        ⟨.uploaded, none, [], none⟩
        ⟨true, true, .ok "deed text", false, true, .ok "Sale Deed"⟩).doc.errorMsg
      = some RATE_LIMIT_EXCEEDED ∧
    workerQueueAfter (processSingleDocument "application/pdf" "deed.pdf"
        ⟨.uploaded, none, [], none⟩
        ⟨true, true, .ok "deed text", false, true, .ok "Sale Deed"⟩).result [("p1", "d1")]
      = [("p1", "d1")] ∧
    workerPauses (processSingleDocument "application/pdf" "deed.pdf"
        ⟨.uploaded, none, [], none⟩
        ⟨true, true, .ok "deed text", false, true, .ok "Sale Deed"⟩).result = true :=
  allowance_failure_marks_error_and_retries "application/pdf" "deed.pdf"
    ⟨.uploaded, none, [], none⟩
    ⟨true, true, .ok "deed text", false, true, .ok "Sale Deed"⟩ [("p1", "d1")]
    (Or.inr ⟨rfl, rfl, by decide, by decide, by decide, Or.inl rfl⟩)

/-- C4 (counterexample): a derivation run that hits the rate-limited
sentinel schedules the 20-second retry, yet returns with the project
already removed from the re-entrancy set — the `finally` clause releases
the lock on this path too, so the lock is not held until the retry
fires. -/
theorem deriver_lock_released_in_retry_path :
    (runProjectDetailExtraction [] "proj_1" true true true "deed text"
        ⟨"P", "A", "C", "S", "UNKNOWN"⟩ (.errThrow "429")).action = .retryScheduled ∧
    "proj_1" ∉ (runProjectDetailExtraction [] "proj_1" true true true "deed text"
        ⟨"P", "A", "C", "S", "UNKNOWN"⟩ (.errThrow "429")).lockAfter := by
  decide

/-- C4 (amended): a derivation request for a project already in the
in-flight set is dropped (not queued) with the set unchanged; when the AI
call returns the rate-limited sentinel, the same derivation is rescheduled
after the fixed 20-second delay; and on every path the run returns with
the re-entrancy set restored to its prior value — the lock taken at entry
is released by the `finally` clause even on the retry path, the retry
re-acquiring it when it fires. -/
theorem deriver_drop_and_retry_characterization (lock : List String) (pid : String)
    (u allow ex : Bool) (txt : String) (p : ProjectFields) (ai : DetailsAIOut) :
    (pid ∈ lock →
        runProjectDetailExtraction lock pid u allow ex txt p ai = ⟨.dropped, lock⟩) ∧
    ((runProjectDetailExtraction lock pid u allow ex txt p ai).lockAfter = lock) ∧
    (pid ∉ lock → u = true → allow = true → ex = true → txt ≠ "" →
      ∀ m, ai = .errThrow m → isRateLimitSignalExceeded m = true → strTrim txt ≠ "" →
      (runProjectDetailExtraction lock pid u allow ex txt p ai).action
        = .retryScheduled) := by
  refine ⟨?_, ?_, ?_⟩
  · intro hmem
    unfold runProjectDetailExtraction
    rw [if_pos (Or.inl hmem)]
  · unfold runProjectDetailExtraction
    by_cases hg : pid ∈ lock ∨ ¬(u = true)
    · rw [if_pos hg]
    · rw [if_neg hg]
      push_neg at hg
      have herase : (pid :: lock).erase pid = lock := List.erase_cons_head pid lock
      by_cases ha : ¬(allow = true)
      · rw [if_pos ha]
      · rw [if_neg ha]
        by_cases he : ¬(ex = true)
        · simp only [if_pos he, herase]
        · rw [if_neg he]
          by_cases htxt : txt = ""
          · simp only [if_pos htxt, herase]
          · rw [if_neg htxt]
            cases extractProjectDetailsAndScenario txt ai with
            | rateLimited => exact herase
            | fields d => exact herase
  · intro hmem hu hallow hex htxt m hai hrl htrim
    unfold runProjectDetailExtraction
    rw [if_neg (by simp [hmem, hu]), if_neg (by simp [hallow]), if_neg (by simp [hex]),
      if_neg htxt]
    have : extractProjectDetailsAndScenario txt ai = .rateLimited := by
      unfold extractProjectDetailsAndScenario
      rw [if_neg htrim, hai]
      simp [hrl]
    rw [this]

/-- Closed instantiation of `deriver_drop_and_retry_characterization`. -/
theorem deriver_drop_and_retry_characterization_witness :
    runProjectDetailExtraction ["proj_2"] "proj_2" true true true "deed text"
        ⟨"P", "A", "C", "S", "UNKNOWN"⟩ (.errThrow "429")
      = ⟨.dropped, ["proj_2"]⟩ ∧
    (runProjectDetailExtraction ["other"] "proj_2" true true true "deed text"
        ⟨"P", "A", "C", "S", "UNKNOWN"⟩ (.errThrow "429")).lockAfter = ["other"] ∧
    (runProjectDetailExtraction ["other"] "proj_2" true true true "deed text"
        ⟨"P", "A", "C", "S", "UNKNOWN"⟩ (.errThrow "429")).action = .retryScheduled := by
  refine ⟨(deriver_drop_and_retry_characterization ["proj_2"] "proj_2" true true true
      "deed text" ⟨"P", "A", "C", "S", "UNKNOWN"⟩ (.errThrow "429")).1 (by decide),
    (deriver_drop_and_retry_characterization ["other"] "proj_2" true true true
      "deed text" ⟨"P", "A", "C", "S", "UNKNOWN"⟩ (.errThrow "429")).2.1,
    (deriver_drop_and_retry_characterization ["other"] "proj_2" true true true
      "deed text" ⟨"P", "A", "C", "S", "UNKNOWN"⟩ (.errThrow "429")).2.2 (by decide) rfl rfl
      rfl (by decide) "429" rfl (by decide) (by decide)⟩

/-- The left fold of the loader equals filtering the valid entries and
mapping the project pass over them. -/
theorem loadProjects_arr_eq (entries : List (Option RawProject)) :
    loadProjects (.arr entries) =
      ((entries.filterMap id).filter (fun rp => truthyStr rp.id)).map loadProject := by
  have key : ∀ (es : List (Option RawProject)) (acc : List LoadedProject),
      es.foldl
        (fun acc e =>
          match e with
          | none => acc
          | some rp => if truthyStr rp.id then acc ++ [loadProject rp] else acc)
        acc
      = acc ++ ((es.filterMap id).filter (fun rp => truthyStr rp.id)).map loadProject := by
    intro es
    induction es with
    | nil => intro acc; simp
    | cons e tl ih =>
        intro acc
        cases e with
        | none => simpa using ih acc
        | some rp =>
            by_cases h : truthyStr rp.id
            · simp [h, ih, List.filter_cons]
            · simp [h, ih, List.filter_cons]
  simpa [loadProjects] using key entries []

/-- C9: the loader never fails: a missing, unparsable, or non-array
snapshot yields the empty collection; within an array, exactly the
`null`-free entries with a truthy id are loaded, in order and with their
ids; every document of every loaded project has a truthy id and is not in
a transient status; a truthy legacy `docType` ends up in the migrated
`docTypes` exactly once more than zero times — already-present labels are
not duplicated; every document sub-entry with a truthy id of a valid entry
is loaded (as its migration) into that entry's loaded project rather than
dropped; and the migration forces a document found in a transient status
to status `Error` with the interruption message and zero progress, while
leaving the status, error and progress of a non-transient document
unchanged. -/
theorem loader_defensive_properties :
    (loadProjects .missing = [] ∧ loadProjects .parseFail = [] ∧
     loadProjects .notArray = []) ∧
    (∀ entries, (loadProjects (.arr entries)).map LoadedProject.id =
        ((entries.filterMap id).filter (fun rp => truthyStr rp.id)).map RawProject.id) ∧
    (∀ entries p, p ∈ loadProjects (.arr entries) → ∀ d ∈ p.documents,
        truthyStr d.id = true ∧ d.status ∉ transientLoadStatuses) ∧
    (∀ rd t, rd.docType = some t → t ≠ "" →
        t ∈ (migrateDoc rd).docTypes ∧
        (migrateDoc rd).docTypes.count t = max ((rd.docTypes.getD []).count t) 1) ∧
    (∀ entries rp rd, some rp ∈ entries → truthyStr rp.id = true →
        some rd ∈ rp.documents.getD [] → truthyStr rd.id = true →
        ∃ p ∈ loadProjects (.arr entries), p.id = rp.id ∧ migrateDoc rd ∈ p.documents) ∧
    (∀ rd, rd.status ∈ transientLoadStatuses →
        (migrateDoc rd).id = rd.id ∧
        (migrateDoc rd).status = "Error" ∧
        (migrateDoc rd).errorMsg = some "Processing was interrupted. Please re-upload." ∧
        (migrateDoc rd).progress = some 0) ∧
    (∀ rd, rd.status ∉ transientLoadStatuses →
        (migrateDoc rd).id = rd.id ∧ (migrateDoc rd).status = rd.status ∧
        (migrateDoc rd).errorMsg = rd.errorMsg ∧
        (migrateDoc rd).progress = rd.progress) := by
  refine ⟨⟨rfl, rfl, rfl⟩, ?_, ?_, ?_, ?_, ?_, ?_⟩
  · intro entries
    rw [loadProjects_arr_eq, List.map_map]
    rfl
  · intro entries p hp d hd
    rw [loadProjects_arr_eq] at hp
    obtain ⟨rp, _, rfl⟩ := List.mem_map.mp hp
    have hd' : d ∈ loadDocs rp.documents := hd
    unfold loadDocs at hd'
    obtain ⟨rd, hrd, rfl⟩ := List.mem_map.mp hd'
    have hid : truthyStr rd.id = true := (List.mem_filter.mp hrd).2
    constructor
    · unfold migrateDoc
      by_cases hst : rd.status ∈ transientLoadStatuses <;> simp [hst, hid]
    · unfold migrateDoc
      by_cases hst : rd.status ∈ transientLoadStatuses
      · simp [hst]
        decide
      · simp only [if_neg hst]
        exact hst
  · intro rd t ht htne
    have hdoc : (migrateDoc rd).docTypes =
        (if t ≠ "" ∧ t ∉ rd.docTypes.getD [] then rd.docTypes.getD [] ++ [t]
         else rd.docTypes.getD []) := by
      unfold migrateDoc
      rw [ht]
      by_cases hst : rd.status ∈ transientLoadStatuses <;> simp [hst]
    by_cases hmem : t ∈ rd.docTypes.getD []
    · rw [hdoc, if_neg (by simp [hmem])]
      refine ⟨hmem, ?_⟩
      have hpos : 0 < (rd.docTypes.getD []).count t := List.count_pos_iff.mpr hmem
      omega
    · rw [hdoc, if_pos ⟨htne, hmem⟩]
      constructor
      · simp
      · rw [List.count_append]
        have hz : (rd.docTypes.getD []).count t = 0 := by
          simpa using List.count_eq_zero.mpr hmem
        simp [hz]
  · intro entries rp rd hrp hid hrd hdid
    refine ⟨loadProject rp, ?_, rfl, ?_⟩
    · rw [loadProjects_arr_eq]
      exact List.mem_map_of_mem _ (List.mem_filter.mpr
        ⟨List.mem_filterMap.mpr ⟨some rp, hrp, rfl⟩, hid⟩)
    · show migrateDoc rd ∈ loadDocs rp.documents
      unfold loadDocs
      exact List.mem_map_of_mem _ (List.mem_filter.mpr
        ⟨List.mem_filterMap.mpr ⟨some rd, hrd, rfl⟩, hdid⟩)
  · intro rd h
    unfold migrateDoc
    rw [if_pos h]
    exact ⟨rfl, rfl, rfl, rfl⟩
  · intro rd h
    unfold migrateDoc
    rw [if_neg h]
    exact ⟨rfl, rfl, rfl, rfl⟩

/-- Closed instantiation of `loader_defensive_properties` at a snapshot
with a `null` entry, an id-less project entry, and a valid project holding
an in-flight document with a legacy type. -/
theorem loader_defensive_properties_witness :
    (loadProjects (.arr [none,
        some ⟨none, none, none, none, none, none, none⟩,
        some ⟨some "p1",
          some [some ⟨some "d1", "Extracting Text", some "Sale Deed",
                  some ["Sale Deed"], none, none⟩, none],
          none, none, none, none, some "FLAT_IN_SOCIETY"⟩])).map LoadedProject.id
      = [some "p1"] ∧
    "Sale Deed" ∈ (migrateDoc ⟨some "d1", "Extracting Text", some "Sale Deed",
        some ["Sale Deed"], none, none⟩).docTypes ∧
    (migrateDoc ⟨some "d1", "Extracting Text", some "Sale Deed",
        some ["Sale Deed"], none, none⟩).status = "Error" ∧
    (migrateDoc ⟨some "d1", "Extracting Text", some "Sale Deed",
        some ["Sale Deed"], none, none⟩).errorMsg
      = some "Processing was interrupted. Please re-upload." ∧
    (∃ p ∈ loadProjects (.arr [none,
        some ⟨none, none, none, none, none, none, none⟩,
        some ⟨some "p1",
          some [some ⟨some "d1", "Extracting Text", some "Sale Deed",
                  some ["Sale Deed"], none, none⟩, none],
          none, none, none, none, some "FLAT_IN_SOCIETY"⟩]),
      p.id = some "p1" ∧
      migrateDoc ⟨some "d1", "Extracting Text", some "Sale Deed",
        some ["Sale Deed"], none, none⟩ ∈ p.documents) := by
  refine ⟨?_, ?_, ?_, ?_, ?_⟩
  · exact (loader_defensive_properties.2.1 [none,
      some ⟨none, none, none, none, none, none, none⟩,
      some ⟨some "p1",
        some [some ⟨some "d1", "Extracting Text", some "Sale Deed",
                some ["Sale Deed"], none, none⟩, none],
        none, none, none, none, some "FLAT_IN_SOCIETY"⟩]).trans (by decide)
  · exact (loader_defensive_properties.2.2.2.1
      ⟨some "d1", "Extracting Text", some "Sale Deed", some ["Sale Deed"], none, none⟩
      "Sale Deed" rfl (by decide)).1
  · exact (loader_defensive_properties.2.2.2.2.2.1
      ⟨some "d1", "Extracting Text", some "Sale Deed", some ["Sale Deed"], none, none⟩
      (by decide)).2.1
  · exact (loader_defensive_properties.2.2.2.2.2.1
      ⟨some "d1", "Extracting Text", some "Sale Deed", some ["Sale Deed"], none, none⟩
      (by decide)).2.2.1
  · exact loader_defensive_properties.2.2.2.2.1 [none,
      some ⟨none, none, none, none, none, none, none⟩,
      some ⟨some "p1",
        some [some ⟨some "d1", "Extracting Text", some "Sale Deed",
                some ["Sale Deed"], none, none⟩, none],
        none, none, none, none, some "FLAT_IN_SOCIETY"⟩]
      ⟨some "p1",
        some [some ⟨some "d1", "Extracting Text", some "Sale Deed",
                some ["Sale Deed"], none, none⟩, none],
        none, none, none, none, some "FLAT_IN_SOCIETY"⟩
      ⟨some "d1", "Extracting Text", some "Sale Deed", some ["Sale Deed"], none, none⟩
      (by decide) (by decide) (by decide) (by decide)

/-- Rewriting one document's status never changes the id list. -/
theorem setStatus_map_id (docs : List SysDoc) (j : Nat) (st : DocStatus) :
    (setStatus docs j st).map SysDoc.id = docs.map SysDoc.id := by
  unfold setStatus
  induction docs with
  | nil => rfl
  | cons d tl ih =>
      by_cases h : d.id = j <;> simp [h, ih]

/-- Membership in a status rewrite comes from a source document. -/
theorem mem_setStatus (docs : List SysDoc) (j : Nat) (st : DocStatus) (d' : SysDoc)
    (h : d' ∈ setStatus docs j st) :
    ∃ d ∈ docs, d' = if d.id = j then { d with status := st } else d := by
  unfold setStatus at h
  obtain ⟨d, hd, heq⟩ := List.mem_map.mp h
  exact ⟨d, hd, heq.symm⟩

/-- Appending to a non-empty list keeps its head. -/
theorem head_append_of_ne_nil {α : Type} (l l' : List α) (a : α)
    (h : l.head? = some a) : (l ++ l').head? = some a := by
  cases l with
  | nil => cases h
  | cons x tl => simpa using h

/-- A duplicate-free list whose elements are all equal has at most one
element. -/
theorem length_le_one_of_all_eq {α : Type} (l : List α) (j : α)
    (hnd : l.Nodup) (hall : ∀ x ∈ l, x = j) : l.length ≤ 1 := by
  cases l with
  | nil => simp
  | cons x tl =>
      cases tl with
      | nil => simp
      | cons y tl2 =>
          exfalso
          have hx := hall x (by simp)
          have hy := hall y (by simp)
          have hxy : x ∈ y :: tl2 := by simp [hx, hy]
          exact (List.nodup_cons.mp hnd).1 hxy

/-- A `processSingleDocument` run that does not resolve with
`PROCESS_RATE_LIMITED` leaves its document in a non-transient status
(`Processed`, `Unsupported` or `Error`) — the justification for the
`finishJob` guard of the transition system. -/
theorem processSingleDocument_resolved_not_transient (ft fn : String) (d0 : DocState)
    (env : PipelineEnv)
    (h : (processSingleDocument ft fn d0 env).result ≠ PROCESS_RATE_LIMITED) :
    isTransientAI (processSingleDocument ft fn d0 env).doc.status = false := by
  unfold processSingleDocument at h ⊢
  by_cases hA : env.allowExtractInput ∧ env.allowExtractOutput
  · by_cases hB : extractTextFromFile ft fn env.extractAI = RATE_LIMIT_EXCEEDED
    · simp [hA, hB] at h
    · by_cases hC : extractTextFromFile ft fn env.extractAI = UNSUPPORTED_FOR_EXTRACTION
      · simp [hA, hB, hC, isTransientAI, UNSUPPORTED_FOR_EXTRACTION, RATE_LIMIT_EXCEEDED]
      · by_cases hD : strStartsWith (extractTextFromFile ft fn env.extractAI) "Error" = true
        · simp [hA, hB, hC, hD, isTransientAI]
        · by_cases hE : env.allowClassifyInput ∧ env.allowClassifyOutput
          · by_cases hF : classifyDocument env.classifyAI = RATE_LIMIT_EXCEEDED
            · simp [hA, hB, hC, hD, hE, hF] at h
            · simp [hA, hB, hC, hD, hE, hF, isTransientAI]
          · simp [hA, hB, hC, hD, hE, isTransientAI]
  · simp [hA] at h

/-- Startup states satisfy the invariant. -/
theorem PInv_init (s : SysState) (h : InitState s) : PInv s := by
  obtain ⟨hq, hw, hd, hn⟩ := h
  refine ⟨?_, ?_, hn⟩
  · intro d hdm ht
    simp [hd d hdm] at ht
  · intro j hj
    rcases hj with hj | hj <;> rw [hw] at hj <;> exact Worker.noConfusion hj

/-- Every event-loop step preserves the invariant. -/
theorem PInv_step (s t : SysState) (hs : PInv s) (hstep : PStep s t) : PInv t := by
  obtain ⟨hTrans, hHead, hNodup⟩ := hs
  cases hstep with
  | startJob j rest hw hq hmem =>
      refine ⟨?_, ?_, hNodup⟩
      · intro d hd ht
        have h0 := hTrans d hd ht
        simp only [currentJobDoc, hw, hq] at h0
        simpa [currentJobDoc] using h0
      · intro k hk
        rcases hk with hk | hk
        · have hk' : Worker.busy j = Worker.busy k := hk
          obtain rfl : j = k := by injection hk'
          simp [hq]
        · exact Worker.noConfusion (show Worker.busy j = Worker.backoff k from hk)
  | dropJob j rest hw hq hmem =>
      refine ⟨?_, ?_, hNodup⟩
      · intro d hd ht
        have h0 := hTrans d hd ht
        simp only [currentJobDoc, hw, hq] at h0
        have hdj : d.id = j := by simpa using h0
        exact absurd (hdj ▸ List.mem_map_of_mem SysDoc.id hd) hmem
      · intro k hk
        rcases hk with hk | hk <;>
          exact Worker.noConfusion (show Worker.idle = _ from hw ▸ hk)
  | markStatus j st hw =>
      refine ⟨?_, ?_, ?_⟩
      · intro d' hd' ht
        obtain ⟨d, hd, hcase⟩ := mem_setStatus s.docs j st d' hd'
        by_cases hj : d.id = j
        · rw [if_pos hj] at hcase
          subst hcase
          simp [currentJobDoc, hw, hj]
        · rw [if_neg hj] at hcase
          rw [hcase] at ht
          have h0 := hTrans d hd ht
          simp only [currentJobDoc, hw] at h0
          exact absurd (show d.id = j by simpa using h0) hj
      · intro k hk
        rcases hk with hk | hk
        · have hk' : Worker.busy j = Worker.busy k := hw ▸ hk
          obtain rfl : j = k := by injection hk'
          exact hHead j (Or.inl hw)
        · exact Worker.noConfusion (show Worker.busy j = Worker.backoff k from hw ▸ hk)
      · simpa [setStatus_map_id] using hNodup
  | finishJob j rest hw hq hterm =>
      refine ⟨?_, ?_, hNodup⟩
      · intro d hd ht
        have h0 := hTrans d hd ht
        simp only [currentJobDoc, hw] at h0
        have hdj : d.id = j := by simpa using h0
        simp [hterm d hd hdj] at ht
      · intro k hk
        rcases hk with hk | hk <;> exact Worker.noConfusion hk
  | rateLimited j hw =>
      refine ⟨?_, ?_, hNodup⟩
      · intro d hd ht
        have h0 := hTrans d hd ht
        simp only [currentJobDoc, hw] at h0
        simpa [currentJobDoc] using h0
      · intro k hk
        rcases hk with hk | hk
        · exact Worker.noConfusion (show Worker.backoff j = Worker.busy k from hk)
        · have hk' : Worker.backoff j = Worker.backoff k := hk
          obtain rfl : j = k := by injection hk'
          exact hHead j (Or.inl hw)
  | backoffDone j hw =>
      have hhead := hHead j (Or.inr hw)
      refine ⟨?_, ?_, hNodup⟩
      · intro d hd ht
        have h0 := hTrans d hd ht
        simp only [currentJobDoc, hw] at h0
        simpa [currentJobDoc, hhead] using h0
      · intro k hk
        rcases hk with hk | hk <;> exact Worker.noConfusion hk
  | addDoc i st hfresh hst =>
      refine ⟨?_, ?_, ?_⟩
      · intro d hd ht
        rcases List.mem_append.mp hd with hd | hd
        · have h0 := hTrans d hd ht
          simpa [currentJobDoc] using h0
        · have : d = ⟨i, st⟩ := by simpa using hd
          subst this
          rcases hst with h | h <;> simp [h, isTransientAI] at ht
      · intro k hk
        exact hHead k hk
      · rw [List.map_append]
        simp only [List.map_cons, List.map_nil]
        rw [List.nodup_append]
        exact ⟨hNodup, List.nodup_singleton i, by
          intro a ha hb
          have : a = i := by simpa using hb
          exact hfresh (this ▸ ha)⟩
  | enqueue i =>
      refine ⟨?_, ?_, hNodup⟩
      · intro d hd ht
        have h0 := hTrans d hd ht
        cases hw : s.worker with
        | idle =>
            simp only [currentJobDoc, hw] at h0
            have hne := h0.symm
            simp only [currentJobDoc, hw]
            exact (head_append_of_ne_nil s.queue [i] d.id hne).symm
        | busy k =>
            simp only [currentJobDoc, hw] at h0 ⊢
            exact h0
        | backoff k =>
            simp only [currentJobDoc, hw] at h0 ⊢
            exact h0
      · intro k hk
        have hh := hHead k hk
        exact head_append_of_ne_nil s.queue [i] k hh
  | externalSet i st hst =>
      refine ⟨?_, ?_, ?_⟩
      · intro d' hd' ht
        obtain ⟨d, hd, hcase⟩ := mem_setStatus s.docs i st d' hd'
        by_cases hj : d.id = i
        · rw [if_pos hj] at hcase
          subst hcase
          simp only at ht
          simp [hst] at ht
        · rw [if_neg hj] at hcase
          rw [hcase] at ht ⊢
          have h0 := hTrans d hd ht
          simpa [currentJobDoc] using h0
      · intro k hk
        exact hHead k hk
      · simpa [setStatus_map_id] using hNodup
  | deleteDoc i =>
      refine ⟨?_, ?_, ?_⟩
      · intro d hd ht
        have hd' : d ∈ s.docs := (List.mem_filter.mp hd).1
        have h0 := hTrans d hd' ht
        simpa [currentJobDoc] using h0
      · intro k hk
        exact hHead k hk
      · have hsub : List.Sublist ((s.docs.filter (fun d => d.id ≠ i)).map SysDoc.id)
            (s.docs.map SysDoc.id) :=
          (List.filter_sublist s.docs).map SysDoc.id
        exact List.Nodup.sublist hsub hNodup

/-- Every reachable state satisfies the invariant. -/
theorem PInv_reachable (s : SysState) (h : PReachable s) : PInv s := by
  induction h with
  | init s hs => exact PInv_init s hs
  | step s t _ hstep ih => exact PInv_step s t ih hstep

/-- C2: in every reachable state of the pipeline, at most one document in
the whole system has status `Extracting Text` or `Classifying`.  By
construction of the transition system, jobs are worked strictly one at a
time in FIFO order (the worker only starts the queue head while idle, and
only one `busy`/`backoff` slot exists), so no two extract or classify
calls overlap. -/
theorem pipeline_at_most_one_transient_document (s : SysState) (h : PReachable s) :
    (s.docs.filter (fun d => isTransientAI d.status)).length ≤ 1 := by
  obtain ⟨hTrans, _, hNodup⟩ := PInv_reachable s h
  cases hcur : currentJobDoc s with
  | none =>
      have hnil : s.docs.filter (fun d => isTransientAI d.status) = [] := by
        rw [List.filter_eq_nil_iff]
        intro d hd hpd
        have h0 := hTrans d hd (by simpa using hpd)
        rw [hcur] at h0
        exact Option.noConfusion h0
      simp [hnil]
  | some j =>
      have hsub : List.Sublist ((s.docs.filter (fun d => isTransientAI d.status)).map SysDoc.id)
          (s.docs.map SysDoc.id) :=
        (List.filter_sublist s.docs).map SysDoc.id
      have hndl : ((s.docs.filter (fun d => isTransientAI d.status)).map SysDoc.id).Nodup :=
        List.Nodup.sublist hsub hNodup
      have hall : ∀ x ∈ (s.docs.filter (fun d => isTransientAI d.status)).map SysDoc.id,
          x = j := by
        intro x hx
        obtain ⟨d, hd, rfl⟩ := List.mem_map.mp hx
        have hd' := List.mem_filter.mp hd
        have h0 := hTrans d hd'.1 (by simpa using hd'.2)
        rw [hcur] at h0
        exact Option.some.inj h0
      have hlen := length_le_one_of_all_eq _ j hndl hall
      simpa using hlen

/-- Closed instantiation of `pipeline_at_most_one_transient_document` at a
freshly loaded state. -/
theorem pipeline_at_most_one_transient_document_witness :
    (((⟨[⟨0, .uploaded⟩, ⟨1, .processed⟩], [], .idle⟩ : SysState).docs.filter
        (fun d => isTransientAI d.status)).length ≤ 1) :=
  pipeline_at_most_one_transient_document ⟨[⟨0, .uploaded⟩, ⟨1, .processed⟩], [], .idle⟩
    (PReachable.init _ ⟨rfl, rfl, by decide, by decide⟩)

end ModSTR
